import Mathlib

/-!
Verification of the Auto-PyTorch tutorial notebook
(src/examples/basics/Auto-PyTorch Tutorial.ipynb).

The repository consists of a single Jupyter notebook of straight-line glue
code around the autoPyTorch library.  We embed the notebook shallowly:

* the notebook's code cells become a concrete list of statements in a small
  Python-like language (section "Notebook syntax" below, and the statement
  list named in defs cellN below);
* the semantics is a deterministic fuel-based interpreter parameterized by
  an oracle that supplies the result of every call into an external library
  (autoPyTorch, openml, numpy, pandas, os.path); the oracle may also raise;
* file persistence of JSON results is given real semantics through a
  verified JSON serializer and parser (section "JSON values");
* numpy integer-array indexing (cell 9 of the notebook) and the pandas
  column selections (cell 24) are embedded as gather and column-selection
  functions over lists.

Section "JSON values" first: a model of the Python data that json.dump
writes, a canonical serializer, a parser, and the proof that the
serialization round-trips.
-/

set_option linter.unusedVariables false

namespace AutoPyTorchNb

/-! ## JSON values

A model of JSON-serializable Python data: None, booleans, decimal numbers
(mantissa times ten to the minus exponent, covering ints and the decimal
floats the notebook passes around), strings, arrays and string-keyed
objects.  Mutual inductives avoid nested-inductive recursion. -/

mutual

inductive Json where
  | null : Json
  | jbool (b : Bool) : Json
  | num (m : Int) (e : Nat) : Json
  | jstr (s : String) : Json
  | arr (a : JArr) : Json
  | obj (o : JObj) : Json

inductive JArr where
  | nil : JArr
  | cons (hd : Json) (tl : JArr) : JArr

inductive JObj where
  | nil : JObj
  | cons (k : String) (v : Json) (tl : JObj) : JObj

end

/-- Opening brace character, written by code point. -/
def lb : Char := Char.ofNat 123

/-- Closing brace character, written by code point. -/
def rb : Char := Char.ofNat 125

/-- Character for a decimal digit. -/
def digitChar (d : Nat) : Char := Char.ofNat (48 + d)

/-- Is a character a decimal digit. -/
def isDig (c : Char) : Bool := 48 ≤ c.toNat && c.toNat ≤ 57

/-- Numeric value of a digit character. -/
def digVal (c : Char) : Nat := c.toNat - 48

/-- Decimal digits of a natural number, most significant first.
Fuel-based so that it reduces in the kernel; fuel at least the number
suffices. -/
def natCharsAux : Nat → Nat → List Char
  | 0, _ => []
  | f + 1, n => if n < 10 then [digitChar n] else natCharsAux f (n / 10) ++ [digitChar (n % 10)]

/-- Decimal digits of a natural number. -/
def natChars (n : Nat) : List Char := natCharsAux (n + 1) n

/-- Decimal form of an integer, with a leading minus sign when negative. -/
def intChars (m : Int) : List Char :=
  if m < 0 then '-' :: natChars m.natAbs else natChars m.toNat

/-- Escape a string body for a JSON string literal: backslash-escape the
quote and the backslash, leave every other character unchanged. -/
def escChars : List Char → List Char
  | [] => []
  | c :: cs => if c = '"' || c = '\\' then '\\' :: c :: escChars cs else c :: escChars cs

mutual

/-- Canonical JSON serialization of a value (no whitespace; numbers with a
nonzero exponent rendered in scientific notation with a negative power of
ten). -/
def serJ : Json → List Char
  | .null => ['n', 'u', 'l', 'l']
  | .jbool true => ['t', 'r', 'u', 'e']
  | .jbool false => ['f', 'a', 'l', 's', 'e']
  | .num m e => intChars m ++ (if e = 0 then [] else 'E' :: '-' :: natChars e)
  | .jstr s => '"' :: escChars s.data ++ ['"']
  | .arr .nil => ['[', ']']
  | .arr (.cons h t) => '[' :: serJ h ++ serA t
  | .obj .nil => [lb, rb]
  | .obj (.cons k v t) => lb :: '"' :: escChars k.data ++ '"' :: ':' :: serJ v ++ serO t

/-- Serialization of the tail of a JSON array: each further element is
preceded by a comma and the whole is closed by a bracket. -/
def serA : JArr → List Char
  | .nil => [']']
  | .cons h t => ',' :: serJ h ++ serA t

/-- Serialization of the tail of a JSON object. -/
def serO : JObj → List Char
  | .nil => [rb]
  | .cons k v t => ',' :: '"' :: escChars k.data ++ '"' :: ':' :: serJ v ++ serO t

end

/-! Parser, fuel-based. -/

/-- Consume an expected literal prefix. -/
def dropLit : List Char → List Char → Option (List Char)
  | [], cs => some cs
  | _ :: _, [] => none
  | p :: ps, c :: cs => if c = p then dropLit ps cs else none

/-- Split off the longest prefix of digit characters. -/
def takeDigs : List Char → List Char × List Char
  | [] => ([], [])
  | c :: cs =>
    if isDig c then ((takeDigs cs).1.cons c, (takeDigs cs).2) else ([], c :: cs)

/-- Numeric value of a digit string, most significant first. -/
def digsVal (ds : List Char) : Nat := ds.foldl (fun a c => 10 * a + digVal c) 0

/-- Parse a natural number written in decimal. -/
def parseNatPre (cs : List Char) : Option (Nat × List Char) :=
  if (takeDigs cs).1 = [] then none else some (digsVal (takeDigs cs).1, (takeDigs cs).2)

/-- Parse an integer: an optional minus sign then a decimal numeral. -/
def parseIntPre (cs : List Char) : Option (Int × List Char) :=
  if cs.head? = some '-' then
    (parseNatPre cs.tail).map fun p => (-(p.1 : Int), p.2)
  else
    (parseNatPre cs).map fun p => ((p.1 : Int), p.2)

/-- Parse a number: an integer mantissa, optionally followed by a negative
scientific exponent as produced by the serializer. -/
def parseNumPre (cs : List Char) : Option (Json × List Char) :=
  (parseIntPre cs).bind fun p =>
    if p.2.head? = some 'E' then
      if p.2.tail.head? = some '-' then
        (parseNatPre p.2.tail.tail).map fun q => (Json.num p.1 q.1, q.2)
      else none
    else some (Json.num p.1 0, p.2)

/-- Parse the body of a string literal after the opening quote, undoing the
escaping, up to the closing quote.  The flag records that a backslash was
just read, so the next character is taken literally. -/
def parseStrBodyB : Bool → List Char → Option (List Char × List Char)
  | _, [] => none
  | true, c :: cs => (parseStrBodyB false cs).map fun p => (c :: p.1, p.2)
  | false, c :: cs =>
    if c = '"' then some ([], cs)
    else if c = '\\' then parseStrBodyB true cs
    else (parseStrBodyB false cs).map fun p => (c :: p.1, p.2)

/-- Parse the body of a string literal after the opening quote. -/
def parseStrBody (cs : List Char) : Option (List Char × List Char) :=
  parseStrBodyB false cs

mutual

/-- Parse a JSON value from the head of the stream. -/
def parseJ : Nat → List Char → Option (Json × List Char)
  | 0, _ => none
  | f + 1, cs =>
    if cs.head? = some 'n' then
      (dropLit ['n', 'u', 'l', 'l'] cs).map fun r => (Json.null, r)
    else if cs.head? = some 't' then
      (dropLit ['t', 'r', 'u', 'e'] cs).map fun r => (Json.jbool true, r)
    else if cs.head? = some 'f' then
      (dropLit ['f', 'a', 'l', 's', 'e'] cs).map fun r => (Json.jbool false, r)
    else if cs.head? = some '"' then
      (parseStrBody cs.tail).map fun p => (Json.jstr (String.mk p.1), p.2)
    else if cs.head? = some '[' then
      if cs.tail.head? = some ']' then some (Json.arr .nil, cs.tail.tail)
      else
        (parseJ f cs.tail).bind fun p =>
          (parseA f p.2).map fun q => (Json.arr (JArr.cons p.1 q.1), q.2)
    else if cs.head? = some lb then
      if cs.tail.head? = some rb then some (Json.obj .nil, cs.tail.tail)
      else
        if cs.tail.head? = some '"' then
          (parseStrBody cs.tail.tail).bind fun pk =>
            if pk.2.head? = some ':' then
              (parseJ f pk.2.tail).bind fun p =>
                (parseO f p.2).map fun q =>
                  (Json.obj (JObj.cons (String.mk pk.1) p.1 q.1), q.2)
            else none
        else none
    else if cs.head? = some '-' then parseNumPre cs
    else if (cs.head?.map isDig).getD false then parseNumPre cs
    else none

/-- Parse the tail of a JSON array: a closing bracket, or a comma, an
element and a further tail. -/
def parseA : Nat → List Char → Option (JArr × List Char)
  | 0, _ => none
  | f + 1, cs =>
    if cs.head? = some ']' then some (JArr.nil, cs.tail)
    else if cs.head? = some ',' then
      (parseJ f cs.tail).bind fun p =>
        (parseA f p.2).map fun q => (JArr.cons p.1 q.1, q.2)
    else none

/-- Parse the tail of a JSON object. -/
def parseO : Nat → List Char → Option (JObj × List Char)
  | 0, _ => none
  | f + 1, cs =>
    if cs.head? = some rb then some (JObj.nil, cs.tail)
    else if cs.head? = some ',' then
      if cs.tail.head? = some '"' then
        (parseStrBody cs.tail.tail).bind fun pk =>
          if pk.2.head? = some ':' then
            (parseJ f pk.2.tail).bind fun p =>
              (parseO f p.2).map fun q => (JObj.cons (String.mk pk.1) p.1 q.1, q.2)
          else none
      else none
    else none

end

mutual

/-- Size measure for JSON values, used as parser fuel. -/
def jsizeJ : Json → Nat
  | .null => 1
  | .jbool _ => 1
  | .num _ _ => 1
  | .jstr _ => 1
  | .arr a => jsizeA a + 1
  | .obj o => jsizeO o + 1

/-- Size measure for array tails. -/
def jsizeA : JArr → Nat
  | .nil => 1
  | .cons h t => max (jsizeJ h) (jsizeA t) + 1

/-- Size measure for object tails. -/
def jsizeO : JObj → Nat
  | .nil => 1
  | .cons _ v t => max (jsizeJ v) (jsizeO t) + 1

end

/-- Serialize a JSON value to a string, the model of what json.dump writes. -/
def serializeJson (j : Json) : String := String.mk (serJ j)

/-- Fuel bound used by the whole-string parser. -/
def jsizeBound (s : String) : Nat := s.data.length + 1

/-- Parse a whole string as a JSON value, the model of json.load. -/
def parseJson (s : String) : Option Json :=
  (parseJ (jsizeBound s) s.data).bind fun p => if p.2 = [] then some p.1 else none

/-- A stream that may legally follow a serialized value: empty, or starting
with a separator (comma, closing bracket, closing brace). -/
def sepOk : List Char → Prop
  | [] => True
  | c :: _ => c = ',' ∨ c = ']' ∨ c = rb

/-- A stream whose first character, if any, is not a digit. -/
def headNotDig : List Char → Prop
  | [] => True
  | c :: _ => isDig c = false

/-! ### Round-trip lemmas for the numeric primitives -/

theorem digVal_digitChar {d : Nat} (h : d < 10) : digVal (digitChar d) = d := by
  interval_cases d <;> decide

theorem isDig_digitChar {d : Nat} (h : d < 10) : isDig (digitChar d) = true := by
  interval_cases d <;> decide

theorem isDig_ne {c x : Char} (h : isDig c = true) (hx : isDig x = false) : c ≠ x := by
  intro e; subst e; rw [h] at hx; cases hx

theorem natCharsAux_digits : ∀ f n c, c ∈ natCharsAux f n → isDig c = true := by
  intro f
  induction f with
  | zero => intro n c hc; simp [natCharsAux] at hc
  | succ f ih =>
    intro n c hc
    by_cases h : n < 10
    · simp [natCharsAux, h] at hc
      subst hc; exact isDig_digitChar h
    · simp [natCharsAux, h] at hc
      rcases hc with hc | hc
      · exact ih _ _ hc
      · subst hc; exact isDig_digitChar (Nat.mod_lt _ (by omega))

theorem natCharsAux_ne_nil (f n : Nat) : natCharsAux (f + 1) n ≠ [] := by
  by_cases h : n < 10 <;> simp [natCharsAux, h]

theorem natCharsAux_foldl : ∀ f n a, n ≤ f →
    (natCharsAux f n).foldl (fun a c => 10 * a + digVal c) a =
      a * 10 ^ (natCharsAux f n).length + n := by
  intro f
  induction f with
  | zero =>
    intro n a hn
    have : n = 0 := by omega
    subst this; simp [natCharsAux]
  | succ f ih =>
    intro n a hn
    by_cases h : n < 10
    · simp [natCharsAux, h, digVal_digitChar h]; ring
    · have hdiv : n / 10 < n := Nat.div_lt_self (by omega) (by omega)
      have hrec : n / 10 ≤ f := by omega
      have hmod := Nat.div_add_mod n 10
      simp only [natCharsAux, if_neg h, List.foldl_append, List.length_append,
        List.foldl_cons, List.foldl_nil, List.length_cons, List.length_nil]
      rw [ih _ _ hrec, digVal_digitChar (Nat.mod_lt _ (by omega))]
      rw [pow_succ, ← mul_assoc]
      generalize a * 10 ^ (natCharsAux f (n / 10)).length = q
      omega

theorem natChars_digits {n : Nat} {c : Char} (hc : c ∈ natChars n) : isDig c = true :=
  natCharsAux_digits _ _ _ hc

theorem natChars_ne_nil (n : Nat) : natChars n ≠ [] := natCharsAux_ne_nil n n

theorem digsVal_natChars (n : Nat) : digsVal (natChars n) = n := by
  have := natCharsAux_foldl (n + 1) n 0 (by omega)
  simpa [digsVal, natChars] using this

theorem takeDigs_append : ∀ ds rest, (∀ c ∈ ds, isDig c = true) → headNotDig rest →
    takeDigs (ds ++ rest) = (ds, rest) := by
  intro ds
  induction ds with
  | nil =>
    intro rest _ hr
    cases rest with
    | nil => rfl
    | cons c tl => simp [takeDigs, headNotDig] at hr ⊢; simp [hr]
  | cons c ds ih =>
    intro rest hds hr
    have hc : isDig c = true := hds c (by simp)
    have := ih rest (fun x hx => hds x (by simp [hx])) hr
    simp [takeDigs, hc, this]

theorem parseNatPre_natChars {n : Nat} {rest : List Char} (hr : headNotDig rest) :
    parseNatPre (natChars n ++ rest) = some (n, rest) := by
  have ht := takeDigs_append (natChars n) rest (fun c hc => natChars_digits hc) hr
  simp [parseNatPre, ht, natChars_ne_nil n, digsVal_natChars]

theorem parseIntPre_intChars {m : Int} {rest : List Char} (hr : headNotDig rest) :
    parseIntPre (intChars m ++ rest) = some (m, rest) := by
  by_cases hm : m < 0
  · simp only [intChars, if_pos hm, List.cons_append]
    rw [parseIntPre]
    simp only [List.head?_cons, List.tail_cons, if_pos rfl,
      parseNatPre_natChars hr, Option.map_some]
    have : (m.natAbs : Int) = -m := by omega
    simp [this]
  · obtain ⟨d, ds, hds⟩ := List.exists_cons_of_ne_nil (natChars_ne_nil m.toNat)
    have hd : isDig d = true := natChars_digits (by rw [hds]; simp)
    rw [parseIntPre]
    simp only [intChars, if_neg hm]
    rw [hds]
    have hne : ¬ (((d :: ds) ++ rest).head? = some '-') := by
      simp only [List.cons_append, List.head?_cons, Option.some.injEq]
      exact isDig_ne hd (by decide)
    rw [if_neg hne, ← hds, parseNatPre_natChars hr]
    have : ((m.toNat : Nat) : Int) = m := by omega
    simp [this]

theorem sepOk_headNotDig {rest : List Char} (h : sepOk rest) : headNotDig rest := by
  cases rest with
  | nil => trivial
  | cons c tl =>
    simp only [sepOk] at h
    simp only [headNotDig]
    rcases h with h | h | h <;> subst h <;> decide

theorem sepOk_head_ne {rest : List Char} (h : sepOk rest) {x : Char}
    (hx : x = ',' → False) (hx2 : x = ']' → False) (hx3 : x = rb → False) :
    ¬ rest.head? = some x := by
  cases rest with
  | nil => simp
  | cons c tl =>
    simp only [sepOk] at h
    simp only [List.head?_cons, Option.some.injEq]
    rcases h with h | h | h <;> subst h <;>
      [exact fun e => hx e.symm; exact fun e => hx2 e.symm; exact fun e => hx3 e.symm]

theorem parseNumPre_ser {m : Int} {e : Nat} {rest : List Char} (hs : sepOk rest) :
    parseNumPre (intChars m ++ (if e = 0 then [] else 'E' :: '-' :: natChars e) ++ rest) =
      some (Json.num m e, rest) := by
  cases e with
  | zero =>
    have h0 : (if (0 : Nat) = 0 then ([] : List Char) else 'E' :: '-' :: natChars 0) = [] := by
      simp
    rw [h0, List.append_nil, parseNumPre, parseIntPre_intChars (sepOk_headNotDig hs)]
    have hne : ¬ rest.head? = some 'E' := sepOk_head_ne hs (by decide) (by decide) (by decide)
    simp [hne]
  | succ k =>
    have h1 : headNotDig ('E' :: '-' :: natChars (k + 1) ++ rest) := by
      simp only [List.cons_append, headNotDig]; decide
    rw [if_neg (Nat.succ_ne_zero k), parseNumPre, List.append_assoc,
      parseIntPre_intChars h1]
    simp [parseNatPre_natChars (sepOk_headNotDig hs)]

theorem parseStrBody_esc : ∀ s rest, parseStrBody (escChars s ++ '"' :: rest) = some (s, rest) := by
  intro s
  induction s with
  | nil => intro rest; simp [escChars, parseStrBody, parseStrBodyB]
  | cons c cs ih =>
    intro rest
    by_cases h : (c = '"' || c = '\\') = true
    · simp only [escChars, if_pos h, List.cons_append]
      simp only [parseStrBody] at ih
      simp [parseStrBody, parseStrBodyB, ih rest]
    · simp only [escChars, if_neg h, List.cons_append]
      simp only [Bool.or_eq_true, decide_eq_true_eq, not_or] at h
      simp only [parseStrBody] at ih
      simp [parseStrBody, parseStrBodyB, h.1, h.2, ih rest]

/-! ### Head characters of serialized values -/

theorem serJ_head_spec (j : Json) : ∃ c tl, serJ j = c :: tl ∧
    (c = 'n' ∨ c = 't' ∨ c = 'f' ∨ c = '"' ∨ c = '[' ∨ c = lb ∨ c = '-' ∨ isDig c = true) := by
  cases j with
  | null => exact ⟨'n', _, rfl, by tauto⟩
  | jbool b =>
    cases b with
    | false => exact ⟨'f', _, rfl, by tauto⟩
    | true => exact ⟨'t', _, rfl, by tauto⟩
  | num m e =>
    by_cases hm : m < 0
    · refine ⟨'-', natChars m.natAbs ++ (if e = 0 then [] else 'E' :: '-' :: natChars e),
        ?_, by tauto⟩
      simp [serJ, intChars, hm]
    · obtain ⟨d, ds, hds⟩ := List.exists_cons_of_ne_nil (natChars_ne_nil m.toNat)
      have hd : isDig d = true := natChars_digits (by rw [hds]; simp)
      refine ⟨d, ds ++ (if e = 0 then [] else 'E' :: '-' :: natChars e), ?_, by tauto⟩
      simp [serJ, intChars, hm, hds]
  | jstr s => exact ⟨'"', escChars s.data ++ ['"'], by simp [serJ], by tauto⟩
  | arr a =>
    cases a with
    | nil => exact ⟨'[', _, rfl, by tauto⟩
    | cons h t => exact ⟨'[', serJ h ++ serA t, by simp [serJ], by tauto⟩
  | obj o =>
    cases o with
    | nil => exact ⟨lb, _, rfl, by tauto⟩
    | cons k v t =>
      exact ⟨lb, '"' :: (escChars k.data ++ '"' :: ':' :: (serJ v ++ serO t)),
        by simp [serJ], by tauto⟩

theorem serA_head_spec (a : JArr) : ∃ c tl, serA a = c :: tl ∧ (c = ',' ∨ c = ']') := by
  cases a with
  | nil => exact ⟨']', _, rfl, by tauto⟩
  | cons h t => exact ⟨',', serJ h ++ serA t, by simp [serA], by tauto⟩

theorem serO_head_spec (o : JObj) : ∃ c tl, serO o = c :: tl ∧ (c = ',' ∨ c = rb) := by
  cases o with
  | nil => exact ⟨rb, _, rfl, by tauto⟩
  | cons k v t =>
    exact ⟨',', '"' :: (escChars k.data ++ '"' :: ':' :: (serJ v ++ serO t)),
      by simp [serO], by tauto⟩

theorem sepOk_serA (a : JArr) (rest : List Char) : sepOk (serA a ++ rest) := by
  obtain ⟨c, tl, hc, hd⟩ := serA_head_spec a
  rw [hc]
  simp only [List.cons_append, sepOk]
  tauto

theorem sepOk_serO (o : JObj) (rest : List Char) : sepOk (serO o ++ rest) := by
  obtain ⟨c, tl, hc, hd⟩ := serO_head_spec o
  rw [hc]
  simp only [List.cons_append, sepOk]
  tauto

/-- A stream starting with a minus sign or a digit parses as a number. -/
theorem parseJ_dispatch_num (f : Nat) (c : Char) (X : List Char)
    (hc : c = '-' ∨ isDig c = true) : parseJ (f + 1) (c :: X) = parseNumPre (c :: X) := by
  rcases hc with hc | hc
  · subst hc
    have h6 : ¬ (('-' : Char) = lb) := by decide
    simp [parseJ, h6]
  · have h1 : c ≠ 'n' := isDig_ne hc (by decide)
    have h2 : c ≠ 't' := isDig_ne hc (by decide)
    have h3 : c ≠ 'f' := isDig_ne hc (by decide)
    have h4 : c ≠ '"' := isDig_ne hc (by decide)
    have h5 : c ≠ '[' := isDig_ne hc (by decide)
    have h6 : c ≠ lb := isDig_ne hc (by decide)
    have h7 : c ≠ '-' := isDig_ne hc (by decide)
    simp [parseJ, h1, h2, h3, h4, h5, h6, h7, hc]

/-- Round trip at every fuel at least the size of the value: parsing a
serialized value followed by a separator-headed remainder returns exactly
the value and the remainder, simultaneously for values, array tails and
object tails. -/
theorem rtMain : ∀ f : Nat,
    (∀ j rest, jsizeJ j ≤ f → sepOk rest → parseJ f (serJ j ++ rest) = some (j, rest)) ∧
    (∀ a rest, jsizeA a ≤ f → sepOk rest → parseA f (serA a ++ rest) = some (a, rest)) ∧
    (∀ o rest, jsizeO o ≤ f → sepOk rest → parseO f (serO o ++ rest) = some (o, rest)) := by
  intro f
  induction f with
  | zero =>
    refine ⟨?_, ?_, ?_⟩
    · intro j rest h _; exfalso; cases j <;> simp [jsizeJ] at h
    · intro a rest h _; exfalso; cases a <;> simp [jsizeA] at h
    · intro o rest h _; exfalso; cases o <;> simp [jsizeO] at h
  | succ f ih =>
    obtain ⟨ihJ, ihA, ihO⟩ := ih
    refine ⟨?_, ?_, ?_⟩
    · intro j rest hsz hsep
      cases j with
      | null => simp [serJ, parseJ, dropLit]
      | jbool b => cases b <;> simp [serJ, parseJ, dropLit]
      | num m e =>
        have key : parseNumPre (serJ (.num m e) ++ rest) = some (Json.num m e, rest) := by
          simp only [serJ]
          exact parseNumPre_ser hsep
        by_cases hm : m < 0
        · have hc : serJ (Json.num m e) ++ rest =
              '-' :: (natChars m.natAbs ++ ((if e = 0 then [] else 'E' :: '-' :: natChars e) ++ rest)) := by
            simp [serJ, intChars, hm]
          rw [hc, parseJ_dispatch_num f '-' _ (Or.inl rfl), ← hc]
          exact key
        · obtain ⟨d, ds, hds⟩ := List.exists_cons_of_ne_nil (natChars_ne_nil m.toNat)
          have hd : isDig d = true := natChars_digits (by rw [hds]; simp)
          have hc : serJ (Json.num m e) ++ rest =
              d :: (ds ++ ((if e = 0 then [] else 'E' :: '-' :: natChars e) ++ rest)) := by
            simp [serJ, intChars, hm, hds]
          rw [hc, parseJ_dispatch_num f d _ (Or.inr hd), ← hc]
          exact key
      | jstr s =>
        obtain ⟨sd⟩ := s
        simp only [serJ, List.cons_append, List.append_assoc, List.singleton_append]
        simp [parseJ, parseStrBody_esc sd rest]
      | arr a =>
        cases a with
        | nil => simp [serJ, parseJ]
        | cons h t =>
          have hszh : jsizeJ h ≤ f := by
            simp only [jsizeJ, jsizeA] at hsz
            have := Nat.le_max_left (jsizeJ h) (jsizeA t)
            omega
          have hszt : jsizeA t ≤ f := by
            simp only [jsizeJ, jsizeA] at hsz
            have := Nat.le_max_right (jsizeJ h) (jsizeA t)
            omega
          obtain ⟨c, tl, hc, hcd⟩ := serJ_head_spec h
          have hne : ¬ (c = ']') := by
            rcases hcd with h' | h' | h' | h' | h' | h' | h' | h' <;>
              first
              | (subst h'; decide)
              | exact isDig_ne h' (by decide)
          have hh : (serJ h ++ (serA t ++ rest)).head? = some c := by
            rw [hc]; simp
          have e1 : ¬ (('[' : Char) = 'n') := by decide
          have e2 : ¬ (('[' : Char) = 't') := by decide
          have e3 : ¬ (('[' : Char) = 'f') := by decide
          have e4 : ¬ (('[' : Char) = '"') := by decide
          simp only [serJ, List.cons_append, List.append_assoc]
          rw [parseJ]
          simp only [List.head?_cons, Option.some.injEq, List.tail_cons,
            e1, e2, e3, e4, if_false, if_true, reduceIte]
          simp only [hh, Option.some.injEq, hne, if_false]
          rw [ihJ h (serA t ++ rest) hszh (sepOk_serA t rest)]
          simp [ihA t rest hszt hsep]
      | obj o =>
        cases o with
        | nil =>
          have e1 : ¬ (lb = 'n') := by decide
          have e2 : ¬ (lb = 't') := by decide
          have e3 : ¬ (lb = 'f') := by decide
          have e4 : ¬ (lb = '"') := by decide
          have e5 : ¬ (lb = '[') := by decide
          simp [serJ, parseJ, e1, e2, e3, e4, e5]
        | cons k v t =>
          obtain ⟨kd⟩ := k
          have hszv : jsizeJ v ≤ f := by
            simp only [jsizeJ, jsizeO] at hsz
            have := Nat.le_max_left (jsizeJ v) (jsizeO t)
            omega
          have hszt : jsizeO t ≤ f := by
            simp only [jsizeJ, jsizeO] at hsz
            have := Nat.le_max_right (jsizeJ v) (jsizeO t)
            omega
          have e1 : ¬ (lb = 'n') := by decide
          have e2 : ¬ (lb = 't') := by decide
          have e3 : ¬ (lb = 'f') := by decide
          have e4 : ¬ (lb = '"') := by decide
          have e5 : ¬ (lb = '[') := by decide
          have e6 : ¬ (('"' : Char) = rb) := by decide
          simp only [serJ, List.cons_append, List.append_assoc]
          rw [parseJ]
          simp only [List.head?_cons, Option.some.injEq, List.tail_cons,
            e1, e2, e3, e4, e5, e6, if_false, if_true, reduceIte]
          have hstr := parseStrBody_esc kd (':' :: (serJ v ++ (serO t ++ rest)))
          rw [hstr]
          simp only [Option.some_bind, List.head?_cons, List.tail_cons, reduceIte]
          rw [ihJ v (serO t ++ rest) hszv (sepOk_serO t rest)]
          simp [ihO t rest hszt hsep]
    · intro a rest hsz hsep
      cases a with
      | nil => simp [serA, parseA]
      | cons h t =>
        have hszh : jsizeJ h ≤ f := by
          simp only [jsizeA] at hsz
          have := Nat.le_max_left (jsizeJ h) (jsizeA t)
          omega
        have hszt : jsizeA t ≤ f := by
          simp only [jsizeA] at hsz
          have := Nat.le_max_right (jsizeJ h) (jsizeA t)
          omega
        simp only [serA, List.cons_append, List.append_assoc]
        rw [parseA]
        simp only [List.head?_cons, Option.some.injEq, List.tail_cons, reduceIte]
        rw [ihJ h (serA t ++ rest) hszh (sepOk_serA t rest)]
        simp [ihA t rest hszt hsep]
    · intro o rest hsz hsep
      cases o with
      | nil => simp [serO, parseO]
      | cons k v t =>
        obtain ⟨kd⟩ := k
        have hszv : jsizeJ v ≤ f := by
          simp only [jsizeO] at hsz
          have := Nat.le_max_left (jsizeJ v) (jsizeO t)
          omega
        have hszt : jsizeO t ≤ f := by
          simp only [jsizeO] at hsz
          have := Nat.le_max_right (jsizeJ v) (jsizeO t)
          omega
        have e1 : ¬ ((',' : Char) = rb) := by decide
        simp only [serO, List.cons_append, List.append_assoc]
        rw [parseO]
        simp only [List.head?_cons, Option.some.injEq, List.tail_cons,
          e1, if_false, reduceIte]
        have hstr := parseStrBody_esc kd (':' :: (serJ v ++ (serO t ++ rest)))
        rw [hstr]
        simp only [Option.some_bind, List.head?_cons, List.tail_cons, reduceIte]
        rw [ihJ v (serO t ++ rest) hszv (sepOk_serO t rest)]
        simp [ihO t rest hszt hsep]

theorem serJ_len_pos (j : Json) : 1 ≤ (serJ j).length := by
  obtain ⟨c, tl, hc, _⟩ := serJ_head_spec j
  rw [hc]; simp

theorem serA_len_pos (a : JArr) : 1 ≤ (serA a).length := by
  obtain ⟨c, tl, hc, _⟩ := serA_head_spec a
  rw [hc]; simp

theorem serO_len_pos (o : JObj) : 1 ≤ (serO o).length := by
  obtain ⟨c, tl, hc, _⟩ := serO_head_spec o
  rw [hc]; simp

mutual

/-- The parser fuel measure of a value is at most the length of its
serialization. -/
theorem jsizeJ_le_len : ∀ j : Json, jsizeJ j ≤ (serJ j).length
  | .null => by simp [jsizeJ, serJ]
  | .jbool b => by cases b <;> simp [jsizeJ, serJ]
  | .num m e => by
    have h1 : intChars m ≠ [] := by
      by_cases hm : m < 0 <;> simp [intChars, hm, natChars_ne_nil]
    have h2 := List.length_pos.mpr h1
    simp only [jsizeJ, serJ, List.length_append]
    omega
  | .jstr s => by simp [jsizeJ, serJ]
  | .arr .nil => by simp [jsizeJ, jsizeA, serJ]
  | .arr (.cons h t) => by
    have ih1 := jsizeJ_le_len h
    have ih2 := jsizeA_le_len t
    have p1 := serJ_len_pos h
    have p2 := serA_len_pos t
    simp only [jsizeJ, jsizeA, serJ, List.length_cons, List.length_append]
    rcases max_choice (jsizeJ h) (jsizeA t) with hmx | hmx <;> rw [hmx] <;> omega
  | .obj .nil => by simp [jsizeJ, jsizeO, serJ]
  | .obj (.cons k v t) => by
    have ih1 := jsizeJ_le_len v
    have ih2 := jsizeO_le_len t
    have p1 := serJ_len_pos v
    have p2 := serO_len_pos t
    simp only [jsizeJ, jsizeO, serJ, List.length_cons, List.length_append]
    rcases max_choice (jsizeJ v) (jsizeO t) with hmx | hmx <;> rw [hmx] <;> omega

/-- Fuel measure of an array tail against its serialization length. -/
theorem jsizeA_le_len : ∀ a : JArr, jsizeA a ≤ (serA a).length
  | .nil => by simp [jsizeA, serA]
  | .cons h t => by
    have ih1 := jsizeJ_le_len h
    have ih2 := jsizeA_le_len t
    have p1 := serJ_len_pos h
    have p2 := serA_len_pos t
    simp only [jsizeA, serA, List.length_cons, List.length_append]
    rcases max_choice (jsizeJ h) (jsizeA t) with hmx | hmx <;> rw [hmx] <;> omega

/-- Fuel measure of an object tail against its serialization length. -/
theorem jsizeO_le_len : ∀ o : JObj, jsizeO o ≤ (serO o).length
  | .nil => by simp [jsizeO, serO]
  | .cons k v t => by
    have ih1 := jsizeJ_le_len v
    have ih2 := jsizeO_le_len t
    have p1 := serJ_len_pos v
    have p2 := serO_len_pos t
    simp only [jsizeO, serO, List.length_cons, List.length_append]
    rcases max_choice (jsizeJ v) (jsizeO t) with hmx | hmx <;> rw [hmx] <;> omega

end

/-- The JSON serialization round-trips: parsing the serialized form of any
value yields that value back. -/
theorem json_round_trip (j : Json) : parseJson (serializeJson j) = some j := by
  have hlen := jsizeJ_le_len j
  have h := (rtMain ((serJ j).length + 1)).1 j [] (by omega) trivial
  rw [List.append_nil] at h
  have hd : (String.mk (serJ j)).data = serJ j := rfl
  unfold parseJson serializeJson jsizeBound
  rw [hd, h]
  simp

/-! ## Python values, library-call oracle and interpreter state

The notebook is glue code: every value it manipulates is either literal
data or an opaque object produced by an external library (autoPyTorch,
openml, numpy, pandas, os.path).  A Value is therefore JSON-like data, an
opaque library object identified by a tag, a list or dict built from a
literal display, or an open file handle. -/

/-- A Python exception, by class name and message. -/
structure PyExn where
  name : String
  msg : String

/-- A runtime value of the embedded notebook. -/
inductive Value where
  | data (j : Json)
  | obj (tag : Nat)
  | vlist (vs : List Value)
  | vdict (kvs : List (String × Value))
  | vfile (path : String)

/-- Entries of a JSON object as an association list. -/
def JObj.entries : JObj → List (String × Json)
  | .nil => []
  | .cons k v t => (k, v) :: t.entries

/-- First component of a pair result, the model of Python tuple unpacking
a, b = e for the left target. -/
def Value.first : Value → Value
  | .vlist (a :: _) => a
  | .data (.arr (.cons a _)) => .data a
  | _ => .data .null

/-- Second component of a pair result, for the right target of a, b = e. -/
def Value.second : Value → Value
  | .vlist (_ :: b :: _) => b
  | .data (.arr (.cons _ (.cons b _))) => .data b
  | _ => .data .null

/-- Keyword dictionary denoted by a kwargs-unpacking argument. -/
def Value.asKwargs : Value → List (String × Value)
  | .vdict kvs => kvs
  | .data (.obj o) => o.entries.map fun p => (p.1, Value.data p.2)
  | _ => []

/-- Modelled from the spec: the json module is not part of this repository;
the spec records only that the notebook persists JSON results through file
I/O.  A library result dictionary is modelled as a data value and is
serializable; opaque objects and file handles are not. -/
def Value.toJson? : Value → Option Json
  | .data j => some j
  | _ => none

/-- One library call as seen at the boundary: receiver, function name,
positional and keyword argument values. -/
structure CallData where
  recv : Option Value
  fn : String
  args : List Value
  kwargs : List (String × Value)

/-- Interpreter state: the variable environment (later bindings first), the
file system (path to contents, later writes first), the list of library
calls with their results, newest first, and the index of the next call. -/
structure St where
  env : List (String × Value)
  files : List (String × String)
  calls : List (CallData × Value)
  ctr : Nat

/-- The empty starting state of the notebook run. -/
def initSt : St := ⟨[], [], [], 0⟩

/-- An oracle answering every library call, possibly by raising: the
notebook implements none of the library behavior itself. -/
def OracleE : Type := Nat → CallData → Except PyExn Value

/-- A total oracle: one that never raises. -/
def OracleT : Type := Nat → CallData → Value

/-- View a total oracle as a raising oracle that never raises. -/
def liftO (O : OracleT) : OracleE := fun n c => .ok (O n c)

/-- Bind a variable. -/
def setVar (st : St) (x : String) (v : Value) : St :=
  { st with env := (x, v) :: st.env }

/-- Modelled from the spec: semantics of json.dump(value, file), writing
the serialization to the open file, raising TypeError when the value is
not serializable. -/
def jsonDumpSem (c : CallData) (st : St) : Except PyExn (Value × St) :=
  match c.args with
  | [v, .vfile p] =>
    match v.toJson? with
    | some j => .ok (.data .null, { st with files := (p, serializeJson j) :: st.files })
    | none => .error ⟨"TypeError", "Object of this type is not JSON serializable"⟩
  | _ => .ok (.data .null, st)

/-! ## Notebook syntax

A small Python-like language, just rich enough for the notebook's cells.
The language deliberately includes constructs the notebook never uses
(try/except, class and function definitions, lambdas, binary operators) so
that their absence from the embedded notebook is a fact about the notebook
rather than about the language. -/

/-- Literals. -/
inductive Lit where
  | pynone
  | bool (b : Bool)
  | int (n : Int)
  | dec (m : Int) (e : Nat)
  | str (s : String)

/-- The value of a literal. -/
def Lit.toValue : Lit → Value
  | .pynone => .data .null
  | .bool b => .data (.jbool b)
  | .int n => .data (.num n 0)
  | .dec m e => .data (.num m e)
  | .str s => .data (.jstr s)

/-- Expressions. -/
inductive Expr where
  | lit (l : Lit)
  | var (x : String)
  | listE (es : List Expr)
  | dictE (kvs : List (String × Expr))
  | call (recv : Option Expr) (fn : String) (args : List Expr)
      (kwargs : List (String × Expr)) (kwunpack : Option Expr)
  | attr (e : Expr) (fieldName : String)
  | index (e : Expr) (idx : Expr)
  | slice2 (e : Expr) (lo hi : Int)
  | col (e : Expr) (j : Nat)
  | binop (op : String) (a b : Expr)
  | lam (params : List String) (body : Expr)

/-- Statements. -/
inductive Stmt where
  | importS (modName : String)
  | assign (x : String) (e : Expr)
  | assign2 (x y : String) (ex ey : Expr)
  | unpack2 (x y : String) (e : Expr)
  | exprS (e : Expr)
  | printS (es : List Expr)
  | withOpenW (path : String) (fileVar : String) (body : List Stmt)
  | tryE (body : List Stmt) (handler : List Stmt)
  | classDef (cname : String) (body : List Stmt)
  | defFun (fname : String) (params : List String) (body : List Stmt)

/-! ## Interpreter

A deterministic fuel-based interpreter.  Fuel decreases on each syntactic
descent; with fuel at least the depth of the notebook's cells the
interpreter computes the notebook's behavior exactly, and the theorems
below use concrete sufficient fuel.  All interpreter work is a single
structurally recursive function over fuel, dispatching on a task. -/

/-- A unit of interpreter work: an expression, an optional expression (a
call receiver), an argument list, a keyword list, an optional
kwargs-unpacking argument, a statement, or a statement list. -/
inductive Task where
  | e (x : Expr)
  | oe (x : Option Expr)
  | es (xs : List Expr)
  | kw (xs : List (String × Expr))
  | okw (x : Option Expr)
  | st (s : Stmt)
  | sts (ss : List Stmt)

/-- Result of a unit of interpreter work. -/
inductive Res where
  | v (val : Value)
  | ov (val? : Option Value)
  | vs (vals : List Value)
  | kvs (kvals : List (String × Value))
  | unit

/-- The value of an expression result. -/
def Res.asV : Res → Value
  | .v val => val
  | _ => .data .null

/-- The optional value of a receiver result. -/
def Res.asOV : Res → Option Value
  | .ov val? => val?
  | _ => none

/-- The values of an argument-list result. -/
def Res.asVs : Res → List Value
  | .vs vals => vals
  | _ => []

/-- The entries of a keyword-list result. -/
def Res.asKvs : Res → List (String × Value)
  | .kvs kvals => kvals
  | _ => []

/-- A continuation receiving the result of a unit of work and the state,
and producing the final state of the statement being executed. -/
def Cont : Type := Res → St → Except PyExn St

/-- Perform one oracle call and continue: consult the oracle at the
current call index, record the call and its result, advance the index. -/
def mkCallK (O : OracleE) (st : St) (c : CallData) (k : Cont) : Except PyExn St :=
  match O st.ctr c with
  | .error e => .error e
  | .ok v => k (.v v) { st with ctr := st.ctr + 1, calls := (c, v) :: st.calls }

/-- The interpreter, in continuation-passing style so that the state stays
in constructor form throughout reduction.  Library calls go to the oracle;
json.dump and print are the only built-ins with local semantics.
Attribute access, indexing, slicing, two-dimensional column selection and
binary operators are library behavior and also go to the oracle under
reserved names.  A try statement runs its handler when the body raises;
the notebook never contains one.  Exhausted fuel yields an inert unit
result, never reached at the concrete fuel used below. -/
def interpK (O : OracleE) : Nat → Task → St → Cont → Except PyExn St
  | 0, _, st, k => k .unit st
  | f + 1, t, st, k =>
    match t with
    | .e (.lit l) => k (.v l.toValue) st
    | .e (.var x) =>
      k (.v (match st.env.lookup x with | some v => v | none => .data .null)) st
    | .e (.listE es) =>
      interpK O f (.es es) st fun r s => k (.v (.vlist r.asVs)) s
    | .e (.dictE kvs) =>
      interpK O f (.kw kvs) st fun r s => k (.v (.vdict r.asKvs)) s
    | .e (.call recvE fn argsE kwE kwu) =>
      interpK O f (.oe recvE) st fun rr s1 =>
        interpK O f (.es argsE) s1 fun ra s2 =>
          interpK O f (.kw kwE) s2 fun rk s3 =>
            interpK O f (.okw kwu) s3 fun ru s4 =>
              let c : CallData := ⟨rr.asOV, fn, ra.asVs, rk.asKvs ++ ru.asKvs⟩
              if fn = "json.dump" then
                match jsonDumpSem c s4 with
                | .ok p => k (.v p.1) p.2
                | .error e => .error e
              else if fn = "print" then k (.v (.data .null)) s4
              else mkCallK O s4 c k
    | .e (.attr e' fieldName) =>
      interpK O f (.e e') st fun r s =>
        mkCallK O s ⟨some r.asV, "__getattr__", [.data (.jstr fieldName)], []⟩ k
    | .e (.index e' ie) =>
      interpK O f (.e e') st fun r1 s1 =>
        interpK O f (.e ie) s1 fun r2 s2 =>
          mkCallK O s2 ⟨some r1.asV, "__getitem__", [r2.asV], []⟩ k
    | .e (.slice2 e' lo hi) =>
      interpK O f (.e e') st fun r s =>
        mkCallK O s
          ⟨some r.asV, "__getslice__", [.data (.num lo 0), .data (.num hi 0)], []⟩ k
    | .e (.col e' j) =>
      interpK O f (.e e') st fun r s =>
        mkCallK O s ⟨some r.asV, "__getcol__", [.data (.num j 0)], []⟩ k
    | .e (.binop op a b) =>
      interpK O f (.e a) st fun r1 s1 =>
        interpK O f (.e b) s1 fun r2 s2 =>
          mkCallK O s2 ⟨none, "__binop__" ++ op, [r1.asV, r2.asV], []⟩ k
    | .e (.lam _ _) => k (.v (.data .null)) st
    | .oe none => k (.ov none) st
    | .oe (some re) => interpK O f (.e re) st fun r s => k (.ov (some r.asV)) s
    | .es [] => k (.vs []) st
    | .es (e' :: es') =>
      interpK O f (.e e') st fun r s =>
        interpK O f (.es es') s fun rs s2 => k (.vs (r.asV :: rs.asVs)) s2
    | .kw [] => k (.kvs []) st
    | .kw ((kk, e') :: r) =>
      interpK O f (.e e') st fun rv s =>
        interpK O f (.kw r) s fun rr s2 => k (.kvs ((kk, rv.asV) :: rr.asKvs)) s2
    | .okw none => k (.kvs []) st
    | .okw (some ue) =>
      interpK O f (.e ue) st fun r s => k (.kvs r.asV.asKwargs) s
    | .st (.importS _) => k .unit st
    | .st (.assign x e') =>
      interpK O f (.e e') st fun r s => k .unit (setVar s x r.asV)
    | .st (.assign2 x y ex ey) =>
      interpK O f (.e ex) st fun r1 s1 =>
        interpK O f (.e ey) s1 fun r2 s2 =>
          k .unit (setVar (setVar s2 x r1.asV) y r2.asV)
    | .st (.unpack2 x y e') =>
      interpK O f (.e e') st fun r s =>
        k .unit (setVar (setVar s x r.asV.first) y r.asV.second)
    | .st (.exprS e') => interpK O f (.e e') st fun _ s => k .unit s
    | .st (.printS es) => interpK O f (.es es) st fun _ s => k .unit s
    | .st (.withOpenW path fileVar body) =>
      interpK O f (.sts body) (setVar st fileVar (.vfile path)) fun _ s => k .unit s
    | .st (.tryE body handler) =>
      (match interpK O f (.sts body) st (fun _ s => .ok s) with
       | .ok s2 => k .unit s2
       | .error _ => interpK O f (.sts handler) st fun _ s => k .unit s)
    | .st (.classDef _ _) => k .unit st
    | .st (.defFun _ _ _) => k .unit st
    | .sts [] => k .unit st
    | .sts (s :: r) =>
      interpK O f (.st s) st fun _ s1 => interpK O f (.sts r) s1 k

/-- Execute one statement at the given fuel. -/
def execS (O : OracleE) (f : Nat) (st : St) (s : Stmt) : Except PyExn St :=
  interpK O f (.st s) st fun _ s' => .ok s'

/-- Run a statement list, each statement at the given fuel, stopping at the
first uncaught exception. -/
def run (O : OracleE) (f : Nat) : St → List Stmt → Except PyExn St
  | st, [] => .ok st
  | st, s :: r => (execS O f st s).bind fun st' => run O f st' r

/-! ## The notebook

The code cells of src/examples/basics/Auto-PyTorch Tutorial.ipynb,
statement by statement, named after the notebook cell ids. -/

/-- String literal expression. -/
def strE (s : String) : Expr := .lit (.str s)

/-- Integer literal expression. -/
def intE (n : Int) : Expr := .lit (.int n)

/-- Cell 2: the autoPyTorch imports. -/
def cell2 : List Stmt := [.importS "autoPyTorch"]

/-- Cell 3: other imports for later usage. -/
def cell3 : List Stmt :=
  [.importS "pandas", .importS "numpy", .importS "os", .importS "openml", .importS "json"]

/-- Cell 5: construct an AutoNetClassification with a configuration. -/
def cell5 : List Stmt :=
  [.assign "autonet" (.call none "AutoNetClassification" []
    [("config_preset", strE "tiny_cs"), ("result_logger_dir", strE "logs/")] none)]

/-- Cell 7: query the current configuration and the search space. -/
def cell7 : List Stmt :=
  [.assign "current_configuration"
     (.call (some (.var "autonet")) "get_current_autonet_config" [] [] none),
   .assign "hyperparameter_search_space"
     (.call (some (.var "autonet")) "get_hyperparameter_search_space" [] [] none)]

/-- Cell 9: load the openml task and build the train and test sets. -/
def cell9 : List Stmt :=
  [.assign "task" (.call none "openml.tasks.get_task" [] [("task_id", intE 31)] none),
   .unpack2 "X" "y" (.call (some (.var "task")) "get_X_and_y" [] [] none),
   .unpack2 "ind_train" "ind_test"
     (.call (some (.var "task")) "get_train_test_split_indices" [] [] none),
   .assign2 "X_train" "Y_train"
     (.index (.var "X") (.var "ind_train")) (.index (.var "y") (.var "ind_train")),
   .assign2 "X_test" "Y_test"
     (.index (.var "X") (.var "ind_test")) (.index (.var "y") (.var "ind_test"))]

/-- Cell 11: construct a fresh instance, fit, and save the results. -/
def cell11 : List Stmt :=
  [.assign "autonet" (.call none "AutoNetClassification" []
     [("config_preset", strE "tiny_cs"), ("result_logger_dir", strE "logs/")] none),
   .assign "results_fit" (.call (some (.var "autonet")) "fit" []
     [("X_train", .var "X_train"), ("Y_train", .var "Y_train"),
      ("validation_split", .lit (.dec 3 1)), ("max_runtime", intE 300),
      ("min_budget", intE 60), ("max_budget", intE 100),
      ("refit", .lit (.bool true))] none),
   .withOpenW "logs/results_fit.json" "file"
     [.exprS (.call none "json.dump" [.var "results_fit", .var "file"] [] none)]]

/-- Cell 13: construct another instance from a config dict, sample a random
hyperparameter configuration, refit, and save the results. -/
def cell13 : List Stmt :=
  [.assign "autonet_config" (.dictE
     [("result_logger_dir", strE "logs/"), ("budget_type", strE "epochs"),
      ("log_level", strE "info"), ("use_tensorboard_logger", .lit (.bool true)),
      ("validation_split", .lit (.dec 0 1))]),
   .assign "autonet" (.call none "AutoNetClassification" [] [] (some (.var "autonet_config"))),
   .assign "hyperparameter_config"
     (.call (some (.call (some (.call (some (.var "autonet"))
        "get_hyperparameter_search_space" [] [] none))
        "sample_configuration" [] [] none))
        "get_dictionary" [] [] none),
   .assign "results_refit" (.call (some (.var "autonet")) "refit" []
     [("X_train", .var "X_train"), ("Y_train", .var "Y_train"),
      ("X_valid", .lit .pynone), ("Y_valid", .lit .pynone),
      ("hyperparameter_config", .var "hyperparameter_config"),
      ("autonet_config", .call (some (.var "autonet")) "get_current_autonet_config" [] [] none),
      ("budget", intE 50)] none),
   .withOpenW "logs/results_refit.json" "file"
     [.exprS (.call none "json.dump" [.var "results_refit", .var "file"] [] none)]]

/-- Cell 15: score and predict on the test set, print the results. -/
def cell15 : List Stmt :=
  [.assign "score" (.call (some (.var "autonet")) "score" []
     [("X_test", .var "X_test"), ("Y_test", .var "Y_test")] none),
   .assign "pred" (.call (some (.var "autonet")) "predict" [] [("X", .var "X_test")] none),
   .printS [strE "Model prediction:", .slice2 (.var "pred") 0 10],
   .printS [strE "Accuracy score", .var "score"]]

/-- Cell 17: materialize and print the PyTorch model. -/
def cell17 : List Stmt :=
  [.assign "pytorch_model" (.call (some (.var "autonet")) "get_pytorch_model" [] [] none),
   .printS [.var "pytorch_model"]]

/-- Cell 20: construct the image-classification instances. -/
def cell20 : List Stmt :=
  [.assign "autonet_image_classification" (.call none "AutoNetImageClassification" []
     [("config_preset", strE "full_cs"), ("result_logger_dir", strE "logs/")] none),
   .assign "autonet_multi_image_classification"
     (.call none "AutoNetImageClassificationMultipleDatasets" []
     [("config_preset", strE "tiny_cs"), ("result_logger_dir", strE "logs/")] none)]

/-- Cell 22: option I, pass the path of a csv file describing the images. -/
def cell22 : List Stmt :=
  [.assign "csv_dir" (.call none "os.path.abspath" [strE "../../datasets/example.csv"] [] none),
   .assign "X_train" (.call none "np.array" [.listE [.var "csv_dir"]] [] none),
   .assign "Y_train" (.call none "np.array" [.listE [intE 0]] [] none)]

/-- Cell 24: option II, read the csv and pass image paths and labels. -/
def cell24 : List Stmt :=
  [.assign "df" (.call none "pd.read_csv" [.var "csv_dir"] [("header", .lit .pynone)] none),
   .assign "X_train" (.col (.attr (.var "df") "values") 0),
   .assign "Y_train" (.col (.attr (.var "df") "values") 1)]

/-- Cell 26: fit the image classifier. -/
def cell26 : List Stmt :=
  [.exprS (.call (some (.var "autonet_image_classification")) "fit" []
     [("X_train", .var "X_train"), ("Y_train", .var "Y_train"),
      ("images_shape", .listE [intE 3, intE 32, intE 32]),
      ("min_budget", intE 200), ("max_budget", intE 400), ("max_runtime", intE 600),
      ("save_checkpoints", .lit (.bool true)),
      ("images_root_folders",
        .listE [.call none "os.path.abspath" [strE "../../datasets/example_images"] [] none])]
     none)]

/-- Cell 28: fit on the CIFAR10 csv shortcut. -/
def cell28 : List Stmt :=
  [.assign "path_to_cifar_csv"
     (.call none "os.path.abspath" [strE "../../datasets/CIFAR10.csv"] [] none),
   .exprS (.call (some (.var "autonet_image_classification")) "fit" []
     [("X_train", .call none "np.array" [.listE [.var "path_to_cifar_csv"]] [] none),
      ("Y_train", .call none "np.array" [.listE [intE 0]] [] none),
      ("min_budget", intE 600), ("max_budget", intE 900), ("max_runtime", intE 1800),
      ("default_dataset_download_dir", strE "./datasets"),
      ("images_root_folders", .listE [strE "./datasets"])] none)]

/-- Cell 30: fit across multiple datasets. -/
def cell30 : List Stmt :=
  [.exprS (.call (some (.var "autonet_multi_image_classification")) "fit" []
     [("X_train", .call none "np.array"
        [.listE [.var "path_to_cifar_csv", .var "csv_dir"]] [] none),
      ("Y_train", .call none "np.array" [.listE [intE 0]] [] none),
      ("min_budget", intE 1500), ("max_budget", intE 2000), ("max_runtime", intE 4000),
      ("default_dataset_download_dir", strE "./datasets"),
      ("images_root_folders", .listE [strE "./datasets", strE "./datasets/example_images"])]
     none)]

/-- The whole notebook, in cell order. -/
def notebook : List Stmt :=
  cell2 ++ cell3 ++ cell5 ++ cell7 ++ cell9 ++ cell11 ++ cell13 ++ cell15 ++ cell17 ++
    cell20 ++ cell22 ++ cell24 ++ cell26 ++ cell28 ++ cell30

/-! ## Syntactic analysis of the notebook

Fuel-based traversals (fuel beyond the nesting depth of any cell) that
collect the named calls a statement makes and detect constructs. -/

/-- Traversal fuel, deeper than any nesting in the notebook. -/
def synFuel : Nat := 20

/-- All named function calls in an expression, nested calls included,
outermost first. -/
def exprFns : Nat → Expr → List String
  | 0, _ => []
  | f + 1, e =>
    match e with
    | .lit _ => []
    | .var _ => []
    | .listE es => es.flatMap (exprFns f)
    | .dictE kvs => kvs.flatMap fun p => exprFns f p.2
    | .call recvE fn argsE kwE kwu =>
      fn :: ((match recvE with | none => [] | some re => exprFns f re) ++
        argsE.flatMap (exprFns f) ++ kwE.flatMap (fun p => exprFns f p.2) ++
        (match kwu with | none => [] | some ue => exprFns f ue))
    | .attr e' _ => exprFns f e'
    | .index e' ie => exprFns f e' ++ exprFns f ie
    | .slice2 e' _ _ => exprFns f e'
    | .col e' _ => exprFns f e'
    | .binop _ a b => exprFns f a ++ exprFns f b
    | .lam _ body => exprFns f body

/-- All named function calls a statement makes. -/
def stmtFns : Nat → Stmt → List String
  | 0, _ => []
  | f + 1, s =>
    match s with
    | .importS _ => []
    | .assign _ e => exprFns f e
    | .assign2 _ _ ex ey => exprFns f ex ++ exprFns f ey
    | .unpack2 _ _ e => exprFns f e
    | .exprS e => exprFns f e
    | .printS es => es.flatMap (exprFns f)
    | .withOpenW _ _ body => body.flatMap (stmtFns f)
    | .tryE b hnd => b.flatMap (stmtFns f) ++ hnd.flatMap (stmtFns f)
    | .classDef _ body => body.flatMap (stmtFns f)
    | .defFun _ _ body => body.flatMap (stmtFns f)

/-- All named function calls of a statement list, in order. -/
def stmtListFns (f : Nat) (ss : List Stmt) : List String := ss.flatMap (stmtFns f)

/-- All named calls of the notebook. -/
def notebookFns : List String := stmtListFns synFuel notebook

/-- Does a statement contain a try/except, at any nesting. -/
def stmtHasTry : Nat → Stmt → Bool
  | 0, _ => false
  | f + 1, s =>
    match s with
    | .tryE _ _ => true
    | .withOpenW _ _ body => body.any (stmtHasTry f)
    | .classDef _ body => body.any (stmtHasTry f)
    | .defFun _ _ body => body.any (stmtHasTry f)
    | _ => false

/-- The statement list contains no try/except. -/
def noTry (ss : List Stmt) : Bool := !(ss.any (stmtHasTry synFuel))

/-- Does a statement define a class or a function, at any nesting. -/
def stmtHasDef : Nat → Stmt → Bool
  | 0, _ => false
  | f + 1, s =>
    match s with
    | .classDef _ _ => true
    | .defFun _ _ _ => true
    | .withOpenW _ _ body => body.any (stmtHasDef f)
    | .tryE b hnd => b.any (stmtHasDef f) || hnd.any (stmtHasDef f)
    | _ => false

/-- Is an expression plain: built only from literals, variables, list and
dict displays, calls, attribute access, indexing, slicing and column
selection, with no lambda and no operator computation. -/
def exprPlain : Nat → Expr → Bool
  | 0, _ => false
  | f + 1, e =>
    match e with
    | .lit _ => true
    | .var _ => true
    | .listE es => es.all (exprPlain f)
    | .dictE kvs => kvs.all fun p => exprPlain f p.2
    | .call recvE _ argsE kwE kwu =>
      (match recvE with | none => true | some re => exprPlain f re) &&
        argsE.all (exprPlain f) && kwE.all (fun p => exprPlain f p.2) &&
        (match kwu with | none => true | some ue => exprPlain f ue)
    | .attr e' _ => exprPlain f e'
    | .index e' ie => exprPlain f e' && exprPlain f ie
    | .slice2 e' _ _ => exprPlain f e'
    | .col e' _ => exprPlain f e'
    | .binop _ _ _ => false
    | .lam _ _ => false

/-- Is a statement plain: defines no class or function and every expression
in it is plain. -/
def stmtPlain : Nat → Stmt → Bool
  | 0, _ => false
  | f + 1, s =>
    match s with
    | .importS _ => true
    | .assign _ e => exprPlain f e
    | .assign2 _ _ ex ey => exprPlain f ex && exprPlain f ey
    | .unpack2 _ _ e => exprPlain f e
    | .exprS e => exprPlain f e
    | .printS es => es.all (exprPlain f)
    | .withOpenW _ _ body => body.all (stmtPlain f)
    | .tryE b hnd => b.all (stmtPlain f) && hnd.all (stmtPlain f)
    | .classDef _ _ => false
    | .defFun _ _ _ => false

/-! ## Steps of the spec's flow -/

/-- The step kinds of the spec's end-to-end flow. -/
inductive StepKind where
  | load
  | construct
  | search
  | refitK
  | scoreK
  | predictK
  | materialize
deriving DecidableEq

/-- The autoPyTorch instance constructors imported by the notebook. -/
def ctorNames : List String :=
  ["AutoNetClassification", "AutoNetMultilabel", "AutoNetRegression",
   "AutoNetImageClassification", "AutoNetImageClassificationMultipleDatasets"]

/-- The step of the spec's flow a statement performs, judged by the named
calls it makes: loading the openml dataset, constructing a configured
instance, invoking fit, refit, score, predict, or get_pytorch_model. -/
def stepKindOf (s : Stmt) : Option StepKind :=
  let fns := stmtFns synFuel s
  if fns.contains "openml.tasks.get_task" then some .load
  else if fns.any (fun fn => ctorNames.contains fn) then some .construct
  else if fns.contains "fit" then some .search
  else if fns.contains "refit" then some .refitK
  else if fns.contains "score" then some .scoreK
  else if fns.contains "predict" then some .predictK
  else if fns.contains "get_pytorch_model" then some .materialize
  else none

/-- The sequence of flow steps a statement list performs, in order. -/
def stepTrace (ss : List Stmt) : List StepKind := ss.filterMap stepKindOf

/-- The order the spec gives for the end-to-end flow. -/
def specOrder : List StepKind :=
  [.load, .construct, .search, .refitK, .scoreK, .predictK, .materialize]

/-! ## Exception origin and propagation -/

/-- The exception json.dump raises on unserializable values. -/
def dumpExn : PyExn := ⟨"TypeError", "Object of this type is not JSON serializable"⟩

/-- An exception originates outside the notebook: it was raised by a
library call via the oracle, or it is the json.dump type error. -/
def ErrOrigin (O : OracleE) (e : PyExn) : Prop :=
  (∃ n c, O n c = .error e) ∨ e = dumpExn

/-- Every exception a computation surfaces originates outside the
notebook. -/
def GoodE (O : OracleE) {α : Type} (x : Except PyExn α) : Prop :=
  ∀ e, x = .error e → ErrOrigin O e

theorem goodE_ok {O : OracleE} {α : Type} (v : α) : GoodE O (.ok v) := by
  intro e h; cases h

theorem goodE_bind {O : OracleE} {α β : Type} {x : Except PyExn α}
    {g : α → Except PyExn β} (hx : GoodE O x) (hg : ∀ a, GoodE O (g a)) :
    GoodE O (x.bind g) := by
  intro e h
  cases x with
  | error e' => cases h; exact hx _ rfl
  | ok a => exact hg a e h

theorem goodE_map {O : OracleE} {α β : Type} {x : Except PyExn α}
    (g : α → β) (hx : GoodE O x) : GoodE O (x.map g) := by
  intro e h
  cases x with
  | error e' => cases h; exact hx _ rfl
  | ok a => cases h

theorem dumpErr {c : CallData} {st : St} {e : PyExn}
    (h : jsonDumpSem c st = .error e) : e = dumpExn := by
  unfold jsonDumpSem at h
  split at h
  · split at h
    · cases h
    · cases h; rfl
  · cases h

theorem mkCallK_good {O : OracleE} {st : St} {c : CallData} {k : Cont}
    (hk : ∀ r s, GoodE O (k r s)) : GoodE O (mkCallK O st c k) := by
  intro e h
  unfold mkCallK at h
  cases hoc : O st.ctr c with
  | error e' =>
    rw [hoc] at h
    cases h
    exact Or.inl ⟨st.ctr, c, hoc⟩
  | ok v =>
    rw [hoc] at h
    exact hk _ _ e h

/-- Every exception the interpreter surfaces, at any fuel, any task, any
state and any well-behaved continuation, is a library-call exception or
the json.dump type error: the embedded language has no statement that
creates exceptions of its own. -/
theorem interpK_good (O : OracleE) :
    ∀ f t st (k : Cont), (∀ r s, GoodE O (k r s)) → GoodE O (interpK O f t st k) := by
  intro f
  induction f with
  | zero => intro t st k hk; simp only [interpK]; exact hk _ _
  | succ f ih =>
    intro t st k hk
    cases t with
    | e x =>
      cases x with
      | lit l => exact hk _ _
      | var v => exact hk _ _
      | listE es => exact ih _ _ _ fun r s => hk _ _
      | dictE kvs => exact ih _ _ _ fun r s => hk _ _
      | call recvE fn argsE kwE kwu =>
        refine ih _ _ _ fun rr s1 => ih _ _ _ fun ra s2 => ih _ _ _ fun rk s3 =>
          ih _ _ _ fun ru s4 => ?_
        simp only [interpK]
        split
        · intro e h
          cases hd : jsonDumpSem ⟨rr.asOV, fn, ra.asVs, rk.asKvs ++ ru.asKvs⟩ s4 with
          | ok p => rw [hd] at h; exact hk _ _ e h
          | error e' =>
            rw [hd] at h
            cases h
            exact Or.inr (dumpErr hd)
        · split
          · exact hk _ _
          · exact mkCallK_good hk
      | attr e' fieldName => exact ih _ _ _ fun r s => mkCallK_good hk
      | index e' ie =>
        exact ih _ _ _ fun r1 s1 => ih _ _ _ fun r2 s2 => mkCallK_good hk
      | slice2 e' lo hi => exact ih _ _ _ fun r s => mkCallK_good hk
      | col e' j => exact ih _ _ _ fun r s => mkCallK_good hk
      | binop op a b =>
        exact ih _ _ _ fun r1 s1 => ih _ _ _ fun r2 s2 => mkCallK_good hk
      | lam params body => exact hk _ _
    | oe x =>
      cases x with
      | none => exact hk _ _
      | some re => exact ih _ _ _ fun r s => hk _ _
    | es xs =>
      cases xs with
      | nil => exact hk _ _
      | cons e' r => exact ih _ _ _ fun r1 s1 => ih _ _ _ fun rs s2 => hk _ _
    | kw xs =>
      cases xs with
      | nil => exact hk _ _
      | cons he r =>
        obtain ⟨kk, e'⟩ := he
        exact ih _ _ _ fun rv s => ih _ _ _ fun rr s2 => hk _ _
    | okw x =>
      cases x with
      | none => exact hk _ _
      | some ue => exact ih _ _ _ fun r s => hk _ _
    | st s =>
      cases s with
      | importS m => exact hk _ _
      | assign x e' => exact ih _ _ _ fun r s => hk _ _
      | assign2 x y ex ey => exact ih _ _ _ fun r1 s1 => ih _ _ _ fun r2 s2 => hk _ _
      | unpack2 x y e' => exact ih _ _ _ fun r s => hk _ _
      | exprS e' => exact ih _ _ _ fun r s => hk _ _
      | printS es => exact ih _ _ _ fun r s => hk _ _
      | withOpenW path fv body => exact ih _ _ _ fun r s => hk _ _
      | tryE b hnd =>
        simp only [interpK]
        cases hb : interpK O f (.sts b) st (fun _ s => .ok s) with
        | ok s2 => exact hk _ _
        | error e' => exact ih _ _ _ fun r s => hk _ _
      | classDef c body => exact hk _ _
      | defFun n ps body => exact hk _ _
    | sts ss =>
      cases ss with
      | nil => exact hk _ _
      | cons s r => exact ih _ _ _ fun r1 s1 => ih _ _ _ hk

/-- Every exception a whole run surfaces is of library origin. -/
theorem run_good (O : OracleE) (f : Nat) : ∀ ss st, GoodE O (run O f st ss) := by
  intro ss
  induction ss with
  | nil => intro st; simp only [run]; exact goodE_ok _
  | cons s r ih =>
    intro st
    simp only [run]
    exact goodE_bind (interpK_good O f _ _ _ fun r s => goodE_ok _) fun st' => ih st'

theorem run_append (O : OracleE) (f : Nat) :
    ∀ xs ys st, run O f st (xs ++ ys) = (run O f st xs).bind fun st' => run O f st' ys := by
  intro xs
  induction xs with
  | nil => intro ys st; rfl
  | cons s r ih =>
    intro ys st
    simp only [List.cons_append, run]
    cases h : execS O f st s with
    | error e => rfl
    | ok st' => exact ih ys st'

/-! ## Refined model of cell 9: numpy integer-array indexing

The interpreter treats numpy indexing as an opaque library call; cell 9's
train/test construction is additionally embedded at the level of the data.
numpy integer-array indexing X[ind] gathers the rows of X at the positions
listed in ind. -/

/-- numpy integer-array indexing (gather). -/
def npIndex {α : Type} (X : Nat → α) (ind : List Nat) : List α := ind.map X

namespace Cell9

/-- Cell 9: X_train = X[ind_train]. -/
def X_train {α : Type} (X : Nat → α) (ind_train : List Nat) : List α := npIndex X ind_train

/-- Cell 9: Y_train = y[ind_train]. -/
def Y_train {β : Type} (y : Nat → β) (ind_train : List Nat) : List β := npIndex y ind_train

/-- Cell 9: X_test = X[ind_test]. -/
def X_test {α : Type} (X : Nat → α) (ind_test : List Nat) : List α := npIndex X ind_test

/-- Cell 9: Y_test = y[ind_test]. -/
def Y_test {β : Type} (y : Nat → β) (ind_test : List Nat) : List β := npIndex y ind_test

end Cell9

/-! ## Refined model of cell 24: pandas column selection -/

/-- Column j of a row-major matrix, df.values with the selection [:, j]:
entry i is the j-th cell of row i when the row is long enough. -/
def colSel {α : Type} (rows : List (List α)) (j : Nat) : List (Option α) :=
  rows.map fun r => r[j]?

namespace Cell24

/-- Cell 24: X_train = df.values[:, 0]. -/
def X_train {α : Type} (rows : List (List α)) : List (Option α) := colSel rows 0

/-- Cell 24: Y_train = df.values[:, 1]. -/
def Y_train {α : Type} (rows : List (List α)) : List (Option α) := colSel rows 1

end Cell24

/-! ## The claims -/

/-- The six call signatures the spec names as the interfaces of note. -/
def sixAPI : List String :=
  ["fit", "refit", "score", "predict", "get_pytorch_model", "get_hyperparameter_search_space"]

/-- Calls that go to the dataset loaders, numpy, pandas, os.path or the
json file I/O rather than to the autoPyTorch library. -/
def datasetIOFns : List String :=
  ["openml.tasks.get_task", "get_X_and_y", "get_train_test_split_indices",
   "np.array", "os.path.abspath", "pd.read_csv", "json.dump"]

/-- The named calls a statement list makes into the autoPyTorch library:
all named calls except dataset loading and file I/O. -/
def autonetCalls (ss : List Stmt) : List String :=
  (stmtListFns synFuel ss).filter fun fn => !(datasetIOFns.contains fn)

/-- Every autoPyTorch call name actually occurring in the notebook. -/
def fullAPI : List String :=
  ["AutoNetClassification", "AutoNetImageClassification",
   "AutoNetImageClassificationMultipleDatasets", "get_current_autonet_config",
   "get_hyperparameter_search_space", "sample_configuration", "get_dictionary",
   "fit", "refit", "score", "predict", "get_pytorch_model"]

/-- C1, counterexample: the notebook's steps are not in exactly the order
the spec's flow gives; in particular a configuration object is constructed
(cell 5) before the dataset load (cell 9), and the image examples add
constructions and search calls after get_pytorch_model. -/
theorem claim_C1_counterexample : ¬ stepTrace notebook = specOrder := by decide

/-- C1, amended: the notebook's flow steps, in order, are: a configuration
object construction, the dataset load, then construction, search (fit),
construction, refit, score, predict and materialization in the spec's
relative order, followed by the image examples (two constructions and
three further search calls).  In particular fit precedes refit, refit
precedes score and predict, and those precede get_pytorch_model. -/
theorem claim_C1_amended_order :
    stepTrace notebook =
      [.construct, .load, .construct, .search, .construct, .refitK, .scoreK,
       .predictK, .materialize, .construct, .construct, .search, .search, .search] := by
  decide

/-- C2, counterexample: not every call into the external library is one of
the six named signatures; the notebook also calls the constructors,
get_current_autonet_config, sample_configuration and get_dictionary. -/
theorem claim_C2_counterexample :
    ¬ (∀ fn ∈ autonetCalls notebook, fn ∈ sixAPI) := by decide

/-- C2, amended: the calls into the external library are exactly the six
named signatures (except that get_hyperparameter_search_space appears and
so do all six except none missing) together with the three constructors
used, get_current_autonet_config, sample_configuration and get_dictionary;
the fit, score, predict and get_pytorch_model steps are each a single
library call (the fit cell adds only the constructor and the json dump),
while the refit cell also embeds a get_current_autonet_config call and the
three-call configuration sampling chain. -/
theorem claim_C2_amended_calls :
    ((autonetCalls notebook).all fun fn => fullAPI.contains fn) = true ∧
    (fullAPI.all fun fn => (autonetCalls notebook).contains fn) = true ∧
    stmtListFns synFuel cell11 = ["AutoNetClassification", "fit", "json.dump"] ∧
    stmtListFns synFuel cell13 =
      ["AutoNetClassification", "get_dictionary", "sample_configuration",
       "get_hyperparameter_search_space", "refit", "get_current_autonet_config",
       "json.dump"] ∧
    stmtListFns synFuel cell15 = ["score", "predict"] ∧
    stmtListFns synFuel cell17 = ["get_pytorch_model"] := by
  refine ⟨by decide, by decide, by decide, by decide, by decide, by decide⟩

/-- C3: the notebook contains no try/except at any nesting, and every
exception a run of the notebook surfaces originates in a library call (or
is the json.dump type error of the file persistence), unchanged: the
notebook never transforms or recovers a failure. -/
theorem claim_C3_exceptions :
    noTry notebook = true ∧
    ∀ (O : OracleE) (f : Nat) (e : PyExn),
      run O f initSt notebook = .error e → ErrOrigin O e := by
  refine ⟨by decide, ?_⟩
  intro O f e h
  exact run_good O f notebook initSt e h

/-- An oracle whose every call raises a runtime error. -/
def oErr : OracleE := fun _ _ => .error ⟨"RuntimeError", "library failure"⟩

/-- C3, witness: running the notebook against a raising library surfaces
an exception of library origin. -/
theorem claim_C3_exceptions_witness :
    ErrOrigin oErr ⟨"RuntimeError", "library failure"⟩ :=
  claim_C3_exceptions.2 oErr 25 ⟨"RuntimeError", "library failure"⟩ (by rfl)

/-- C5: the notebook defines no class and no function at any nesting, and
every expression it evaluates — every value it binds or passes to a
library call — is plain: literals, variable references, list and dict
displays, and library calls (including attribute access, indexing,
slicing and column selection), with no lambda and no operator
computation. -/
theorem claim_C5_no_data_structures :
    (notebook.all fun s => stmtPlain synFuel s) = true ∧
    (notebook.all fun s => !(stmtHasDef synFuel s)) = true := by
  exact ⟨by decide, by decide⟩

/-- Call names that would create a thread or a process. -/
def threadPrimitives : List String :=
  ["threading.Thread", "multiprocessing.Process", "multiprocessing.Pool",
   "concurrent.futures.ThreadPoolExecutor", "concurrent.futures.ProcessPoolExecutor",
   "os.fork", "subprocess.Popen", "asyncio.run"]

/-- C7: the notebook never creates a thread or a process (none of its
named calls is a threading or multiprocessing primitive), and execution is
synchronous and sequential: for every split point, running the notebook is
running the prefix to completion — each library call returning — before
the rest starts. -/
theorem claim_C7_synchronous :
    (notebookFns.all fun fn => !(threadPrimitives.contains fn)) = true ∧
    ∀ (O : OracleE) (f : Nat) (st : St) (n : Nat),
      run O f st notebook =
        (run O f st (notebook.take n)).bind fun st' => run O f st' (notebook.drop n) := by
  refine ⟨by decide, ?_⟩
  intro O f st n
  conv_lhs => rw [← List.take_append_drop n notebook]
  exact run_append O f (notebook.take n) (notebook.drop n) st

/-- C9: the train and test sets of cell 9 preserve feature-label
alignment: entry i of X_train is the row of X at index ind_train[i] and
entry i of Y_train is the label of y at the same index ind_train[i] (and
likewise for the test set), and the constructed lists have exactly the
length of the index arrays. -/
theorem claim_C9_alignment {α β : Type} (X : Nat → α) (y : Nat → β)
    (ind_train ind_test : List Nat) (i : Nat) :
    (Cell9.X_train X ind_train)[i]? = (ind_train[i]?).map X ∧
    (Cell9.Y_train y ind_train)[i]? = (ind_train[i]?).map y ∧
    (Cell9.X_test X ind_test)[i]? = (ind_test[i]?).map X ∧
    (Cell9.Y_test y ind_test)[i]? = (ind_test[i]?).map y ∧
    (Cell9.X_train X ind_train).length = ind_train.length ∧
    (Cell9.Y_train y ind_train).length = ind_train.length := by
  refine ⟨?_, ?_, ?_, ?_, ?_, ?_⟩ <;>
    simp [Cell9.X_train, Cell9.Y_train, Cell9.X_test, Cell9.Y_test, npIndex]

/-- C10: for a csv read with header None whose every row has at least two
cells, X_train of cell 24 is exactly column 0 and Y_train exactly column
1: both have one entry per csv row, and the i-th entries are precisely the
cells of row i in columns 0 and 1. -/
theorem claim_C10_columns {α : Type} (rows : List (List α))
    (h : ∀ r ∈ rows, 2 ≤ r.length) :
    (Cell24.X_train rows).length = rows.length ∧
    (Cell24.Y_train rows).length = rows.length ∧
    ∀ (i : Nat) (r : List α), rows[i]? = some r →
      ∃ x yv, r[0]? = some x ∧ r[1]? = some yv ∧
        (Cell24.X_train rows)[i]? = some (some x) ∧
        (Cell24.Y_train rows)[i]? = some (some yv) := by
  refine ⟨by simp [Cell24.X_train, colSel], by simp [Cell24.Y_train, colSel], ?_⟩
  intro i r hir
  have hmem : r ∈ rows := by
    exact List.getElem?_mem hir
  have hlen : 2 ≤ r.length := h r hmem
  have h0 : r[0]? = some (r.get ⟨0, by omega⟩) := List.getElem?_eq_getElem (by omega)
  have h1 : r[1]? = some (r.get ⟨1, by omega⟩) := List.getElem?_eq_getElem (by omega)
  refine ⟨_, _, h0, h1, ?_, ?_⟩ <;>
    simp [Cell24.X_train, Cell24.Y_train, colSel, hir, h0, h1]

/-- C10, witness: a two-row csv with two and three cells. -/
theorem claim_C10_columns_witness :
    (Cell24.X_train [[10, 20], [30, 40, 50]]).length = 2 ∧
    (Cell24.Y_train [[10, 20], [30, 40, 50]]).length = 2 ∧
    ∀ (i : Nat) (r : List Nat), ([[10, 20], [30, 40, 50]] : List (List Nat))[i]? = some r →
      ∃ x yv, r[0]? = some x ∧ r[1]? = some yv ∧
        (Cell24.X_train [[10, 20], [30, 40, 50]])[i]? = some (some x) ∧
        (Cell24.Y_train [[10, 20], [30, 40, 50]])[i]? = some (some yv) :=
  claim_C10_columns [[10, 20], [30, 40, 50]] (by decide)

/-! ## Semantic claims about the featurized flow

The featurized flow is run against an arbitrary total oracle constrained
only in the two results the claims condition on: the fit call (the
notebook's twelfth library call) returns a dictionary jf and the refit
call (the eighteenth) returns a dictionary jr, as the tutorial's own
output shows they do.  Everything else the libraries return is arbitrary. -/

/-- An arbitrary library behavior whose fit call returns the dictionary jf
and whose refit call returns the dictionary jr. -/
def fitRefitOracle (O : OracleT) (jf jr : Json) : OracleT :=
  fun n c =>
    if n = 11 then Value.data jf else if n = 17 then Value.data jr else O n c

/-- Interpreter fuel ample for every cell of the notebook. -/
def runFuel : Nat := 25

/-- Did running the first n statements of the notebook complete without an
exception. -/
def runOk (O : OracleT) (n : Nat) : Bool :=
  (run (liftO O) runFuel initSt (notebook.take n)).isOk

/-- The state after running the first n statements of the notebook. -/
def runState (O : OracleT) (n : Nat) : St :=
  match run (liftO O) runFuel initSt (notebook.take n) with
  | .ok st => st
  | .error _ => initSt

/-- The library calls with a given function name, in chronological order. -/
def callsFn (st : St) (fn : String) : List (CallData × Value) :=
  st.calls.reverse.filter fun p => p.1.fn = fn

/-- The receivers of the calls with a given function name. -/
def recvsFn (st : St) (fn : String) : List (Option Value) :=
  (callsFn st fn).map fun p => p.1.recv

/-- The results of the calls with a given function name. -/
def resultsFn (st : St) (fn : String) : List Value :=
  (callsFn st fn).map fun p => p.2

/-- The values passed under a keyword to the calls with a given function
name. -/
def kwargFn (st : St) (fn key : String) : List (Option Value) :=
  (callsFn st fn).map fun p => p.1.kwargs.lookup key

/-- C6: for every library behavior in which fit and refit return
dictionaries, the featurized flow up to the refit call completes, fit and
refit are each called exactly once, and the objects passed as X_train and
Y_train to fit are the very same values passed as X_train and Y_train to
refit — namely exactly the results of the two dataset indexing calls
X[ind_train] and y[ind_train], unmodified; likewise the hyperparameter
configuration passed to refit is exactly the unmodified result of the
get_dictionary call. -/
theorem claim_C6_pass_by_reference (O : OracleT) (jf jr : Json) :
    runOk (fitRefitOracle O jf jr) 21 = true ∧
    (callsFn (runState (fitRefitOracle O jf jr) 21) "fit").length = 1 ∧
    (callsFn (runState (fitRefitOracle O jf jr) 21) "refit").length = 1 ∧
    kwargFn (runState (fitRefitOracle O jf jr) 21) "fit" "X_train" =
      kwargFn (runState (fitRefitOracle O jf jr) 21) "refit" "X_train" ∧
    kwargFn (runState (fitRefitOracle O jf jr) 21) "fit" "Y_train" =
      kwargFn (runState (fitRefitOracle O jf jr) 21) "refit" "Y_train" ∧
    kwargFn (runState (fitRefitOracle O jf jr) 21) "fit" "X_train" =
      ((resultsFn (runState (fitRefitOracle O jf jr) 21) "__getitem__").take 1).map some ∧
    kwargFn (runState (fitRefitOracle O jf jr) 21) "fit" "Y_train" =
      (((resultsFn (runState (fitRefitOracle O jf jr) 21) "__getitem__").drop 1).take 1).map
        some ∧
    kwargFn (runState (fitRefitOracle O jf jr) 21) "refit" "hyperparameter_config" =
      (resultsFn (runState (fitRefitOracle O jf jr) 21) "get_dictionary").map some :=
  ⟨rfl, rfl, rfl, rfl, rfl, rfl, rfl, rfl⟩

/-- C8: for every library behavior in which fit and refit return
dictionaries, the flow through score and predict completes, exactly three
AutoNetClassification instances are constructed, the fit (search) call is
made on the second instance (cell 11), and both the score and the predict
calls are made on the third instance — the one constructed for the refit
example in cell 13 — because the name autonet is rebound to it before
refit; the printed accuracy therefore evaluates the refit model of the
randomly sampled configuration, not the search instance. -/
theorem claim_C8_score_on_refit_instance (O : OracleT) (jf jr : Json) :
    runOk (fitRefitOracle O jf jr) 24 = true ∧
    (resultsFn (runState (fitRefitOracle O jf jr) 24) "AutoNetClassification").length = 3 ∧
    recvsFn (runState (fitRefitOracle O jf jr) 24) "fit" =
      (((resultsFn (runState (fitRefitOracle O jf jr) 24) "AutoNetClassification").drop 1).take
        1).map some ∧
    recvsFn (runState (fitRefitOracle O jf jr) 24) "score" =
      ((resultsFn (runState (fitRefitOracle O jf jr) 24) "AutoNetClassification").drop 2).map
        some ∧
    recvsFn (runState (fitRefitOracle O jf jr) 24) "predict" =
      ((resultsFn (runState (fitRefitOracle O jf jr) 24) "AutoNetClassification").drop 2).map
        some :=
  ⟨rfl, rfl, rfl, rfl, rfl⟩

/-- C4: for every library behavior in which fit returns the dictionary jf
and refit the dictionary jr, the flow through both json dumps completes;
the notebook writes the JSON serialization of jf to logs/results_fit.json
right after fit and of jr to logs/results_refit.json right after refit;
parsing each written file yields exactly the dictionary the library call
returned; and the variables results_fit and results_refit still hold those
unmodified dictionaries after the dumps. -/
theorem claim_C4_json_persistence (O : OracleT) (jf jr : Json) :
    runOk (fitRefitOracle O jf jr) 22 = true ∧
    resultsFn (runState (fitRefitOracle O jf jr) 22) "fit" = [Value.data jf] ∧
    resultsFn (runState (fitRefitOracle O jf jr) 22) "refit" = [Value.data jr] ∧
    (runState (fitRefitOracle O jf jr) 22).files.lookup "logs/results_fit.json" =
      some (serializeJson jf) ∧
    (runState (fitRefitOracle O jf jr) 22).files.lookup "logs/results_refit.json" =
      some (serializeJson jr) ∧
    parseJson (serializeJson jf) = some jf ∧
    parseJson (serializeJson jr) = some jr ∧
    (runState (fitRefitOracle O jf jr) 22).env.lookup "results_fit" =
      some (Value.data jf) ∧
    (runState (fitRefitOracle O jf jr) 22).env.lookup "results_refit" =
      some (Value.data jr) :=
  ⟨rfl, rfl, rfl, rfl, rfl, json_round_trip jf, json_round_trip jr, rfl, rfl⟩

end AutoPyTorchNb
